import Mathlib

/-
Shallow embedding of the llm-mux request-routing and OAuth-management code:
model family resolution (internal/registry/model_families.go), model quirks
(internal/runtime/executor/model_quirks.go), the Gemini content coalescer and
SSE frame builders (internal/translator/ir), and the management OAuth start
handler (internal/api/handlers/management/oauth_api.go).
-/

/-- FamilyMember represents a provider-specific model within a family
(registry.FamilyMember). -/
structure FamilyMember where
  Provider : String
  ModelID : String
  deriving DecidableEq

/-- ModelFamilies maps canonical model names to their provider-specific
variants, in the declaration order of model_families.go.  The Go value is a
map with unique keys; key lookup is order-independent, and the table is
embedded as an association list in source order. -/
def ModelFamilies : List (String × List FamilyMember) :=
  [ ("claude-sonnet-4-5",
      [{ Provider := "kiro", ModelID := "claude-sonnet-4-5" },
       { Provider := "antigravity", ModelID := "gemini-claude-sonnet-4-5" },
       { Provider := "claude", ModelID := "claude-sonnet-4-5-20250929" }]),
    ("claude-sonnet-4-5-thinking",
      [{ Provider := "antigravity", ModelID := "gemini-claude-sonnet-4-5-thinking" },
       { Provider := "claude", ModelID := "claude-sonnet-4-5-thinking" }]),
    ("claude-opus-4-5",
      [{ Provider := "kiro", ModelID := "claude-opus-4-5-20251101" },
       { Provider := "claude", ModelID := "claude-opus-4-5-20251101" }]),
    ("claude-opus-4-5-thinking",
      [{ Provider := "antigravity", ModelID := "gemini-claude-opus-4-5-thinking" },
       { Provider := "claude", ModelID := "claude-opus-4-5-thinking" }]),
    ("claude-sonnet-4",
      [{ Provider := "kiro", ModelID := "claude-sonnet-4-20250514" },
       { Provider := "claude", ModelID := "claude-sonnet-4-20250514" }]),
    ("claude-3-7-sonnet",
      [{ Provider := "kiro", ModelID := "claude-3-7-sonnet-20250219" },
       { Provider := "claude", ModelID := "claude-3-7-sonnet-20250219" }]),
    ("gemini-2.5-pro",
      [{ Provider := "gemini-cli", ModelID := "gemini-2.5-pro" },
       { Provider := "antigravity", ModelID := "gemini-2.5-pro" },
       { Provider := "aistudio", ModelID := "gemini-2.5-pro" },
       { Provider := "gemini", ModelID := "gemini-2.5-pro" }]),
    ("gemini-2.5-flash",
      [{ Provider := "gemini-cli", ModelID := "gemini-2.5-flash" },
       { Provider := "antigravity", ModelID := "gemini-2.5-flash" },
       { Provider := "aistudio", ModelID := "gemini-2.5-flash" },
       { Provider := "gemini", ModelID := "gemini-2.5-flash" }]),
    ("gemini-2.5-flash-lite",
      [{ Provider := "gemini-cli", ModelID := "gemini-2.5-flash-lite" },
       { Provider := "antigravity", ModelID := "gemini-2.5-flash-lite" },
       { Provider := "aistudio", ModelID := "gemini-2.5-flash-lite" },
       { Provider := "gemini", ModelID := "gemini-2.5-flash-lite" }]),
    ("gemini-3-pro-preview",
      [{ Provider := "gemini-cli", ModelID := "gemini-3-pro-preview" },
       { Provider := "antigravity", ModelID := "gemini-3-pro-preview" },
       { Provider := "aistudio", ModelID := "gemini-3-pro-preview" },
       { Provider := "gemini", ModelID := "gemini-3-pro-preview" }]),
    ("gpt-5.1-codex-max",
      [{ Provider := "github-copilot", ModelID := "gpt-5.1-codex-max" },
       { Provider := "openai", ModelID := "gpt-5.1-codex-max" }]) ]

/-- Map-key lookup `ModelFamilies[canonicalID]` used by ResolveModelFamily. -/
def lookupFamily (canonicalID : String) : Option (List FamilyMember) :=
  (ModelFamilies.find? (fun entry => entry.1 == canonicalID)).map (fun entry => entry.2)

/-- ResolveModelFamily resolves a canonical model name to the first family
member whose provider is among the available providers
(model_families.go lines 98-118).  The Go code builds a set from
`availableProviders` for membership tests; set membership coincides with
`List.contains`. -/
def ResolveModelFamily (canonicalID : String) (availableProviders : List String) :
    String × String × Bool :=
  match lookupFamily canonicalID with
  | none => ("", canonicalID, false)
  | some family =>
    match family.find? (fun member => availableProviders.contains member.Provider) with
    | some member => (member.Provider, member.ModelID, true)
    | none => ("", canonicalID, false)

/-- The scan inside GetCanonicalModelID: return the first family key whose
member list contains the given provider model id, else "".  The Go `range`
over the map visits keys in unspecified order; since (as proved below) every
member id belongs to a single family, the result does not depend on the
order, and declaration order is used here. -/
def lookupCanonical : List (String × List FamilyMember) → String → String
  | [], _ => ""
  | (canonical, members) :: rest, pid =>
    if members.any (fun member => member.ModelID == pid) then canonical
    else lookupCanonical rest pid

/-- GetCanonicalModelID returns the canonical ID for a provider-specific
model ID (model_families.go lines 124-133). -/
def GetCanonicalModelID (providerModelID : String) : String :=
  lookupCanonical ModelFamilies providerModelID

/-- Embedding of Go `strings.ToLower`.  Go lowercases per Unicode rune;
`Char.toLower` agrees on the ASCII model ids this development evaluates. -/
def toLowerStr (s : String) : String :=
  String.mk (s.data.map Char.toLower)

/-- Embedding of Go `strings.Contains`: some offset of `s` starts with
`sub`. -/
def strContains (s sub : String) : Bool :=
  (List.range (s.data.length + 1)).any (fun i => sub.data.isPrefixOf (s.data.drop i))

/-- Embedding of Go `strings.HasSuffix`. -/
def hasSuffixStr (s suffix : String) : Bool :=
  suffix.data.isSuffixOf s.data

/-- Embedding of Go `strings.HasPrefix`. -/
def hasPrefixStr (s pre : String) : Bool :=
  pre.data.isPrefixOf s.data

/-- isClaudeModel returns true if the model name indicates a Claude model
(model_quirks.go lines 13-15). -/
def isClaudeModel (model : String) : Bool :=
  strContains (toLowerStr model) "claude"

/-- isGeminiModel returns true if the model name indicates a Gemini model
(model_quirks.go lines 18-21). -/
def isGeminiModel (model : String) : Bool :=
  let lower := toLowerStr model
  hasPrefixStr lower "gemini" || strContains lower "gemini"

/-- Modelled from the spec: the quirk fields of `modelInfo(id)` that
model_quirks.go reads.  The registry implementation behind
`registry.GetGlobalRegistry().GetModelInfo` is not among the provided source
files; per the spec, an entry carries a thinking capability marker, an
`outputTokenLimit` and a `maxCompletionTokens`. -/
structure ModelInfo where
  Thinking : Option Unit := none
  OutputTokenLimit : Int := 0
  MaxCompletionTokens : Int := 0
  deriving DecidableEq

/-- hasThinkingSuffix returns true if model name ends with "-thinking"
(model_quirks.go lines 30-32). -/
def hasThinkingSuffix (model : String) : Bool :=
  hasSuffixStr model "-thinking"

/-- getThinkingVariant returns the thinking variant of a model if it exists
(model_quirks.go lines 36-45).  The global registry lookup is passed as the
`getModelInfo` parameter (modelled from the spec, see `ModelInfo`). -/
def getThinkingVariant (getModelInfo : String → Option ModelInfo) (model : String) : String :=
  if hasThinkingSuffix model then model
  else
    let thinkingModel := model ++ "-thinking"
    if (getModelInfo thinkingModel).isSome then thinkingModel else ""

/-- getOutputTokenLimit returns the max output tokens for a model
(model_quirks.go lines 49-58), with the registry lookup passed as a
parameter. -/
def getOutputTokenLimit (getModelInfo : String → Option ModelInfo) (model : String) : Int :=
  match getModelInfo model with
  | none => 0
  | some info =>
    if info.OutputTokenLimit > 0 then info.OutputTokenLimit else info.MaxCompletionTokens

/-- ContentCoalescer merges consecutive same-role contents
(content_coalescer.go).  A `geminiContent` is a (role, parts) pair; the part
payload type is abstract. -/
structure ContentCoalescer (α : Type) where
  contents : List (String × List α)
  lastRole : String

/-- Emit appends parts under a role, merging into the last content when the
role repeats (content_coalescer.go lines 36-47). -/
def appendToLast {α : Type} : List (String × List α) → List α → List (String × List α)
  | [], _ => []
  | [(r, ps)], qs => [(r, ps ++ qs)]
  | x :: y :: rest, qs => x :: appendToLast (y :: rest) qs

/-- Emit of content_coalescer.go: empty parts are dropped; a repeated role
with a nonempty contents list extends the last content; otherwise a new
content is started and lastRole updated. -/
def Emit {α : Type} (c : ContentCoalescer α) (role : String) (parts : List α) :
    ContentCoalescer α :=
  if parts.isEmpty then c
  else if role == c.lastRole && !c.contents.isEmpty then
    { c with contents := appendToLast c.contents parts }
  else
    { contents := c.contents ++ [(role, parts)], lastRole := role }

/-- Build returns the accumulated contents (content_coalescer.go lines
49-61); each output object holds exactly the role and parts of one
accumulated content, modelled as the pair itself. -/
def Build {α : Type} (c : ContentCoalescer α) : List (String × List α) :=
  c.contents

/-- One Emit step over an emission pair, for folding. -/
def emitStep {α : Type} (c : ContentCoalescer α) (e : String × List α) : ContentCoalescer α :=
  Emit c e.1 e.2

/-- Run a sequence of Emit calls on a fresh coalescer (fresh state: empty
contents, empty lastRole, as produced by the pool's New). -/
def runEmits {α : Type} (emissions : List (String × List α)) : ContentCoalescer α :=
  emissions.foldl emitStep { contents := [], lastRole := "" }

/-- Specification-side coalescing of a run of same-role emissions:
`mergeRun r acc es` extends the open content (r, acc) while emissions keep
role r (dropping empty-part emissions), and closes it when the role
changes. -/
def mergeRun {α : Type} : String → List α → List (String × List α) → List (String × List α)
  | r, acc, [] => [(r, acc)]
  | r, acc, (r2, ps2) :: rest =>
    if ps2.isEmpty then mergeRun r acc rest
    else if r2 == r then mergeRun r (acc ++ ps2) rest
    else (r, acc) :: mergeRun r2 ps2 rest

/-- Specification of the coalescer from the spec's words: empty parts are
dropped and consecutive emissions with the same role are concatenated in
emission order into one content. -/
def coalesceSpec {α : Type} : List (String × List α) → List (String × List α)
  | [] => []
  | (r, ps) :: rest => if ps.isEmpty then coalesceSpec rest else mergeRun r ps rest

/-- BuildSSEChunk builds an SSE chunk with "data: " prefix (pools.go lines
208-218).  The pooled buffer is obtained at length zero, so only the three
appends determine the contents; bytes are modelled as characters. -/
def BuildSSEChunk (jsonData : List Char) : List Char :=
  let buf : List Char := []
  let buf := buf ++ "data: ".data
  let buf := buf ++ jsonData
  let buf := buf ++ "\n\n".data
  buf

/-- BuildSSEEvent builds an SSE event with event type and data (pools.go
lines 222-234). -/
def BuildSSEEvent (eventType : String) (jsonData : List Char) : List Char :=
  let buf : List Char := []
  let buf := buf ++ "event: ".data
  let buf := buf ++ eventType.data
  let buf := buf ++ "\ndata: ".data
  let buf := buf ++ jsonData
  let buf := buf ++ "\n\n".data
  buf

/-- Fields of qwen.DeviceFlow read by the handler. -/
structure DeviceFlow where
  DeviceCode : String
  UserCode : String
  VerificationURI : String
  VerificationURIComplete : String
  ExpiresIn : Int
  Interval : Int
  CodeVerifier : String
  deriving DecidableEq

/-- Fields of copilot.DeviceCodeResponse read by the handler. -/
structure DeviceCodeResponse where
  DeviceCode : String
  UserCode : String
  VerificationURI : String
  ExpiresIn : Int
  Interval : Int
  deriving DecidableEq

/-- OAuthStartRequest (oauth_api.go lines 26-29). -/
structure OAuthStartRequest where
  Provider : String
  ProjectID : String := ""
  deriving DecidableEq

/-- OAuthStartResponse (oauth_api.go lines 32-46); zero values stand for
omitted JSON fields. -/
structure OAuthStartResponse where
  Status : String := ""
  AuthURL : String := ""
  State : String := ""
  Id : String := ""
  Error : String := ""
  CodeVerifier : String := ""
  FlowType : String := ""
  UserCode : String := ""
  VerificationURL : String := ""
  ExpiresIn : Int := 0
  Interval : Int := 0
  deriving DecidableEq

/-- Observable outcome of one handler call: the HTTP status written, the
response body, and the (state, provider) pairs registered in the
pending-flow registry via `oauthService.Registry().Create`. -/
structure HandlerResult where
  httpStatus : Nat
  body : OAuthStartResponse
  creates : List (String × String)
  deriving DecidableEq

/-- The provider-name normalization switch of OAuthStart (oauth_api.go lines
63-71). -/
def normalizeProvider (p : String) : String :=
  if p == "claude" || p == "anthropic" then "claude"
  else if p == "gemini" || p == "gemini-cli" then "gemini"
  else if p == "copilot" || p == "github-copilot" then "copilot"
  else p

/-- Embedding of the Go byte-slice `s[:n]`; device codes are ASCII, so the
first n bytes are the first n characters (Go additionally panics when the
string is shorter, which no caller input here is). -/
def takeBytes (n : Nat) (s : String) : String :=
  String.mk (s.data.take n)

/-- startQwenDeviceFlow (oauth_api.go lines 125-160) as a function of the
upstream device-authorization outcome and the current clock reading;
`fmt.Sprintf("qwen-%d", time.Now().UnixNano())` is the registered state. -/
def startQwenDeviceFlow (initResult : Except String DeviceFlow) (nowUnixNano : Int) :
    HandlerResult :=
  match initResult with
  | Except.error e =>
    { httpStatus := 500,
      body := { Status := "error", Error := "Failed to initiate device flow: " ++ e },
      creates := [] }
  | Except.ok deviceFlow =>
    let state := "qwen-" ++ toString nowUnixNano
    { httpStatus := 200,
      body := { Status := "ok", FlowType := "device", State := state, Id := state,
                UserCode := deviceFlow.UserCode,
                AuthURL := deviceFlow.VerificationURIComplete,
                VerificationURL := deviceFlow.VerificationURI,
                ExpiresIn := deviceFlow.ExpiresIn, Interval := deviceFlow.Interval },
      creates := [(state, "qwen")] }

/-- startCopilotDeviceFlow (oauth_api.go lines 210-245):
`fmt.Sprintf("copilot-%s", deviceCode.DeviceCode[:8])` is the registered
state. -/
def startCopilotDeviceFlow (startResult : Except String DeviceCodeResponse) : HandlerResult :=
  match startResult with
  | Except.error e =>
    { httpStatus := 500,
      body := { Status := "error", Error := "Failed to start device flow: " ++ e },
      creates := [] }
  | Except.ok deviceCode =>
    let state := "copilot-" ++ takeBytes 8 deviceCode.DeviceCode
    { httpStatus := 200,
      body := { Status := "ok", FlowType := "device", State := state, Id := state,
                UserCode := deviceCode.UserCode,
                AuthURL := deviceCode.VerificationURI,
                VerificationURL := deviceCode.VerificationURI,
                ExpiresIn := deviceCode.ExpiresIn, Interval := deviceCode.Interval },
      creates := [(state, "copilot")] }

/-- The iFlow rejection message of OAuthStart (oauth_api.go line 84). -/
def iflowAuthErrorMessage : String :=
  "iFlow uses cookie-based auth. Use POST /v0/management/iflow-auth-url with \x7bcookie: \"...\"\x7d instead"

/-- OAuthStart (oauth_api.go lines 52-119) for a request whose body bound
successfully.  Upstream effects are oracles: `qwenInit` and `copilotStart`
are the device-endpoint outcomes, and `buildResult` is the outcome of
buildProviderAuthURL — (authURL, state, codeVerifier), whose state comes
from misc.GenerateRandomState (that package is not among the source files;
per the spec it yields a random 128-bit URL-safe value).  The callback
forwarder is a side effect with no observable in this model. -/
def OAuthStart (req : OAuthStartRequest)
    (qwenInit : Except String DeviceFlow) (nowUnixNano : Int)
    (copilotStart : Except String DeviceCodeResponse)
    (buildResult : Except String (String × String × String)) : HandlerResult :=
  let provider := normalizeProvider req.Provider
  if provider == "qwen" then startQwenDeviceFlow qwenInit nowUnixNano
  else if provider == "copilot" then startCopilotDeviceFlow copilotStart
  else if provider == "iflow" then
    { httpStatus := 400,
      body := { Status := "error", Error := iflowAuthErrorMessage },
      creates := [] }
  else
    match buildResult with
    | Except.error e =>
      { httpStatus := 400, body := { Status := "error", Error := e }, creates := [] }
    | Except.ok (authURL, state, codeVerifier) =>
      { httpStatus := 200,
        body := { Status := "ok", FlowType := "oauth", AuthURL := authURL,
                  State := state, Id := state, CodeVerifier := codeVerifier },
        creates := [(state, provider)] }

/-- Modelled from the spec: the shape of a `misc.GenerateRandomState` value
(the misc package is not among the source files) — a random 128-bit state
rendered URL-safe, i.e. 16 random bytes in unpadded base64url form: exactly
22 characters over the URL-safe base64 alphabet. -/
def SpecRandomState128 (s : String) : Bool :=
  s.data.length == 22 && s.data.all (fun c => c.isAlphanum || c == '-' || c == '_')

/-- Sample registry contents for concrete evaluations. -/
def demoInfo : ModelInfo :=
  { Thinking := some (), OutputTokenLimit := 64000, MaxCompletionTokens := 8192 }

/-- Sample registry entry with no explicit output token limit. -/
def demoInfoNoLimit : ModelInfo :=
  { Thinking := none, OutputTokenLimit := 0, MaxCompletionTokens := 8192 }

/-- Sample registry lookup function for concrete evaluations. -/
def demoReg : String → Option ModelInfo := fun id =>
  if id == "alpha-thinking" then some demoInfo
  else if id == "alpha" then some demoInfo
  else if id == "omega" then some demoInfoNoLimit
  else none

/-- Sample upstream qwen device-authorization response. -/
def demoQwenFlow : DeviceFlow :=
  { DeviceCode := "dev-code-123", UserCode := "QWEN-CODE",
    VerificationURI := "https://chat.qwen.ai/device",
    VerificationURIComplete := "https://chat.qwen.ai/device?code=QWEN-CODE",
    ExpiresIn := 600, Interval := 5, CodeVerifier := "ver" }

/-- Sample upstream copilot device-code response. -/
def demoCopilotCode : DeviceCodeResponse :=
  { DeviceCode := "a1b2c3d4e5f6", UserCode := "ABCD-1234",
    VerificationURI := "https://github.com/login/device",
    ExpiresIn := 900, Interval := 5 }

/-- C3: the SSE data frame built by BuildSSEChunk is exactly
"data: " ++ payload ++ "\n\n", and the frame built by BuildSSEEvent is
exactly "event: " ++ eventType ++ "\ndata: " ++ payload ++ "\n\n". -/
theorem buildSSE_frames_correct (payload : List Char) (eventType : String) :
    BuildSSEChunk payload = "data: ".data ++ payload ++ "\n\n".data ∧
    BuildSSEEvent eventType payload =
      "event: ".data ++ eventType.data ++ "\ndata: ".data ++ payload ++ "\n\n".data := by
  constructor
  · simp [BuildSSEChunk]
  · simp [BuildSSEEvent]

/-- C10: isClaudeModel and isGeminiModel are not mutually exclusive —
both hold of "gemini-claude-sonnet-4-5", which occurs in the family table
as the antigravity binding of the claude-sonnet-4-5 family. -/
theorem modelKindPredicates_overlap :
    isClaudeModel "gemini-claude-sonnet-4-5" = true ∧
    isGeminiModel "gemini-claude-sonnet-4-5" = true ∧
    (∃ p ∈ ModelFamilies, p.1 = "claude-sonnet-4-5" ∧
      ∃ mem ∈ p.2, mem.Provider = "antigravity" ∧ mem.ModelID = "gemini-claude-sonnet-4-5") := by
  decide

/-- C9: when the upstream device-authorization call succeeds, a start
request for provider "qwen" dispatches to startQwenDeviceFlow, which
responds HTTP 200 with flow_type "device", carries the upstream user_code,
verification_url, expires_in and interval, and returns the state under
which the pending flow was registered. -/
theorem startQwen_device_response (df : DeviceFlow) (now : Int) (projectID : String)
    (cp : Except String DeviceCodeResponse) (b : Except String (String × String × String)) :
    (OAuthStart { Provider := "qwen", ProjectID := projectID } (Except.ok df) now cp b
        = startQwenDeviceFlow (Except.ok df) now) ∧
    ((startQwenDeviceFlow (Except.ok df) now).httpStatus = 200) ∧
    ((startQwenDeviceFlow (Except.ok df) now).body.Status = "ok") ∧
    ((startQwenDeviceFlow (Except.ok df) now).body.FlowType = "device") ∧
    ((startQwenDeviceFlow (Except.ok df) now).body.UserCode = df.UserCode) ∧
    ((startQwenDeviceFlow (Except.ok df) now).body.VerificationURL = df.VerificationURI) ∧
    ((startQwenDeviceFlow (Except.ok df) now).body.ExpiresIn = df.ExpiresIn) ∧
    ((startQwenDeviceFlow (Except.ok df) now).body.Interval = df.Interval) ∧
    ((startQwenDeviceFlow (Except.ok df) now).body.State = "qwen-" ++ toString now) ∧
    ((startQwenDeviceFlow (Except.ok df) now).creates
        = [((startQwenDeviceFlow (Except.ok df) now).body.State, "qwen")]) := by
  exact ⟨rfl, rfl, rfl, rfl, rfl, rfl, rfl, rfl, rfl, rfl⟩

/-- C7 counterexample: a copilot device flow registers the state
"copilot-" ++ the first 8 bytes of the upstream device code, and a qwen
device flow registers "qwen-" ++ the Unix-nanosecond clock value; neither
has the shape of a 128-bit URL-safe random state. -/
theorem oauthDeviceState_not_random128 :
    (startCopilotDeviceFlow (Except.ok demoCopilotCode)).creates
        = [("copilot-a1b2c3d4", "copilot")] ∧
    SpecRandomState128 "copilot-a1b2c3d4" = false ∧
    (startQwenDeviceFlow (Except.ok demoQwenFlow) 17).creates = [("qwen-17", "qwen")] ∧
    SpecRandomState128 "qwen-17" = false := by
  decide

/-- C7 amended: the qwen device flow is keyed by "qwen-" followed by the
Unix-nanosecond timestamp, the copilot device flow by "copilot-" followed
by the first 8 bytes of the upstream device code, and only the WebUI OAuth
branch is keyed by the state produced by buildProviderAuthURL
(misc.GenerateRandomState, random 128-bit URL-safe per the spec). -/
theorem oauthRegisteredStates_shape (req : OAuthStartRequest) (q : Except String DeviceFlow)
    (now : Int) (cp : Except String DeviceCodeResponse) (df : DeviceFlow)
    (dc : DeviceCodeResponse) (u s v : String) :
    ((startQwenDeviceFlow (Except.ok df) now).creates = [("qwen-" ++ toString now, "qwen")]) ∧
    ((startCopilotDeviceFlow (Except.ok dc)).creates
        = [("copilot-" ++ takeBytes 8 dc.DeviceCode, "copilot")]) ∧
    (normalizeProvider req.Provider ∉ (["qwen", "copilot", "iflow"] : List String) →
      (OAuthStart req q now cp (Except.ok (u, s, v))).creates
        = [(s, normalizeProvider req.Provider)]) := by
  refine ⟨rfl, rfl, ?_⟩
  intro h
  have h1 : (normalizeProvider req.Provider == "qwen") = false :=
    beq_eq_false_iff_ne.mpr (fun hx => h (by simp [hx]))
  have h2 : (normalizeProvider req.Provider == "copilot") = false :=
    beq_eq_false_iff_ne.mpr (fun hx => h (by simp [hx]))
  have h3 : (normalizeProvider req.Provider == "iflow") = false :=
    beq_eq_false_iff_ne.mpr (fun hx => h (by simp [hx]))
  simp [OAuthStart, h1, h2, h3]

/-- C7 amended witness: a claude start with a concrete buildProviderAuthURL
outcome registers exactly the generated state. -/
theorem oauthRegisteredStates_shape_witness :
    (OAuthStart { Provider := "claude", ProjectID := "" } (Except.error "e") 0
        (Except.error "e2") (Except.ok ("https://auth.example", "state123", "ver"))).creates
      = [("state123", "claude")] := by
  exact (oauthRegisteredStates_shape { Provider := "claude", ProjectID := "" }
      (Except.error "e") 0 (Except.error "e2") demoQwenFlow demoCopilotCode
      "https://auth.example" "state123" "ver").2.2 (by decide)

/-- C5: getThinkingVariant returns the model itself when it already ends in
"-thinking"; otherwise it returns model ++ "-thinking" when that id is
registered, and "" when it is not. -/
theorem getThinkingVariant_correct (getModelInfo : String → Option ModelInfo) (model : String) :
    (hasThinkingSuffix model = true → getThinkingVariant getModelInfo model = model) ∧
    (hasThinkingSuffix model = false →
      ((getModelInfo (model ++ "-thinking")).isSome = true →
        getThinkingVariant getModelInfo model = model ++ "-thinking") ∧
      (getModelInfo (model ++ "-thinking") = none →
        getThinkingVariant getModelInfo model = "")) := by
  refine ⟨fun h => by simp [getThinkingVariant, h], fun h => ⟨fun hs => ?_, fun hn => ?_⟩⟩
  · simp [getThinkingVariant, h, hs]
  · simp [getThinkingVariant, h, hn]

/-- C5 witness: concrete evaluations of getThinkingVariant on the sample
registry. -/
theorem getThinkingVariant_correct_witness :
    getThinkingVariant demoReg "alpha" = "alpha-thinking" ∧
    getThinkingVariant demoReg "beta-thinking" = "beta-thinking" ∧
    getThinkingVariant demoReg "gamma" = "" := by
  refine ⟨?_, ?_, ?_⟩
  · exact ((getThinkingVariant_correct demoReg "alpha").2 (by decide)).1 (by decide)
  · exact (getThinkingVariant_correct demoReg "beta-thinking").1 (by decide)
  · exact ((getThinkingVariant_correct demoReg "gamma").2 (by decide)).2 (by decide)

/-- C6: getOutputTokenLimit returns 0 for unregistered models; for
registered models it returns OutputTokenLimit when positive and
MaxCompletionTokens otherwise. -/
theorem getOutputTokenLimit_correct (getModelInfo : String → Option ModelInfo) (model : String) :
    (getModelInfo model = none → getOutputTokenLimit getModelInfo model = 0) ∧
    (∀ info, getModelInfo model = some info →
      (0 < info.OutputTokenLimit →
        getOutputTokenLimit getModelInfo model = info.OutputTokenLimit) ∧
      (¬ 0 < info.OutputTokenLimit →
        getOutputTokenLimit getModelInfo model = info.MaxCompletionTokens)) := by
  refine ⟨fun h => by simp [getOutputTokenLimit, h], fun info h => ⟨fun hpos => ?_, fun hneg => ?_⟩⟩
  · simp [getOutputTokenLimit, h, hpos]
  · simp [getOutputTokenLimit, h, hneg]

/-- C6 witness: concrete evaluations of getOutputTokenLimit on the sample
registry. -/
theorem getOutputTokenLimit_correct_witness :
    getOutputTokenLimit demoReg "alpha" = 64000 ∧
    getOutputTokenLimit demoReg "omega" = 8192 ∧
    getOutputTokenLimit demoReg "missing" = 0 := by
  refine ⟨?_, ?_, ?_⟩
  · exact ((getOutputTokenLimit_correct demoReg "alpha").2 demoInfo (by decide)).1 (by decide)
  · exact ((getOutputTokenLimit_correct demoReg "omega").2 demoInfoNoLimit (by decide)).2
      (by decide)
  · exact (getOutputTokenLimit_correct demoReg "missing").1 (by decide)

/-- C8: a start request whose normalized provider is "iflow" is rejected
with HTTP 400, an error message directing the caller to
POST /v0/management/iflow-auth-url, and no flow is registered. -/
theorem oauthStart_iflow_rejected (req : OAuthStartRequest) (q : Except String DeviceFlow)
    (now : Int) (cp : Except String DeviceCodeResponse)
    (b : Except String (String × String × String))
    (h : normalizeProvider req.Provider = "iflow") :
    (OAuthStart req q now cp b).httpStatus = 400 ∧
    (OAuthStart req q now cp b).body.Status = "error" ∧
    (OAuthStart req q now cp b).body.Error = iflowAuthErrorMessage ∧
    (OAuthStart req q now cp b).creates = [] := by
  have h1 : (normalizeProvider req.Provider == "qwen") = false :=
    beq_eq_false_iff_ne.mpr (fun hx => by rw [h] at hx; exact absurd hx (by decide))
  have h2 : (normalizeProvider req.Provider == "copilot") = false :=
    beq_eq_false_iff_ne.mpr (fun hx => by rw [h] at hx; exact absurd hx (by decide))
  have h3 : (normalizeProvider req.Provider == "iflow") = true := by
    rw [h]; decide
  simp [OAuthStart, h1, h2, h3]

/-- C8 witness: the literal iflow request is rejected and registers
nothing. -/
theorem oauthStart_iflow_rejected_witness :
    (OAuthStart { Provider := "iflow", ProjectID := "" } (Except.error "x") 0
        (Except.error "y") (Except.error "z")).httpStatus = 400 ∧
    (OAuthStart { Provider := "iflow", ProjectID := "" } (Except.error "x") 0
        (Except.error "y") (Except.error "z")).creates = [] := by
  have h := oauthStart_iflow_rejected { Provider := "iflow", ProjectID := "" }
      (Except.error "x") 0 (Except.error "y") (Except.error "z") (by decide)
  exact ⟨h.1, h.2.2.2⟩

/-- The first element of a list satisfying a predicate, characterized by
position: if the element at index i satisfies p and no earlier element
does, find? returns it. -/
theorem find_first_match {beta : Type} (p : beta → Bool) (l : List beta) :
    ∀ (i : Nat) (h : i < l.length), p (l.get ⟨i, h⟩) = true →
      (∀ x ∈ l.take i, p x = false) → l.find? p = some (l.get ⟨i, h⟩) := by
  induction l with
  | nil => intro i h; exact absurd h (by simp)
  | cons a tl ih =>
    intro i h hp hbefore
    cases i with
    | zero =>
      simp only [List.get] at hp
      simp [List.find?_cons, hp, List.get]
    | succ i2 =>
      have ha : p a = false := hbefore a (List.mem_cons_self a _)
      have h2 : i2 < tl.length := by simpa using h
      have hrec := ih i2 h2 hp (fun x hx => hbefore x (List.mem_cons_of_mem a hx))
      simp only [List.find?_cons, ha]
      exact hrec

/-- C1: ResolveModelFamily returns ("", C, false) when C is not a family
key or no member provider is available, and otherwise the first family
member (in declaration order) whose provider occurs in the available list,
with found = true. -/
theorem resolveModelFamily_correct (canonicalID : String) (availableProviders : List String) :
    (lookupFamily canonicalID = none →
      ResolveModelFamily canonicalID availableProviders = ("", canonicalID, false)) ∧
    (∀ fam, lookupFamily canonicalID = some fam →
      ((∀ member ∈ fam, availableProviders.contains member.Provider = false) →
        ResolveModelFamily canonicalID availableProviders = ("", canonicalID, false)) ∧
      (∀ i (h : i < fam.length),
        availableProviders.contains (fam.get ⟨i, h⟩).Provider = true →
        (∀ member ∈ fam.take i, availableProviders.contains member.Provider = false) →
        ResolveModelFamily canonicalID availableProviders =
          ((fam.get ⟨i, h⟩).Provider, (fam.get ⟨i, h⟩).ModelID, true))) := by
  refine ⟨fun h => by simp [ResolveModelFamily, h], fun fam hfam => ⟨?_, ?_⟩⟩
  · intro hnone
    have hfind : fam.find? (fun member => availableProviders.contains member.Provider) = none :=
      List.find?_eq_none.mpr
        (fun x hx => by simp only [hnone x hx]; exact Bool.false_ne_true)
    simp only [ResolveModelFamily, hfam]
    rw [hfind]
  · intro i h hp hbefore
    have hfind := find_first_match
      (fun member => availableProviders.contains member.Provider) fam i h hp hbefore
    simp only [ResolveModelFamily, hfam]
    rw [hfind]

/-- C1 witness: with only the aistudio provider available, the
gemini-2.5-pro family resolves to its third member. -/
theorem resolveModelFamily_correct_witness :
    ResolveModelFamily "gemini-2.5-pro" ["aistudio"] = ("aistudio", "gemini-2.5-pro", true) := by
  have h := ((resolveModelFamily_correct "gemini-2.5-pro" ["aistudio"]).2
      [{ Provider := "gemini-cli", ModelID := "gemini-2.5-pro" },
       { Provider := "antigravity", ModelID := "gemini-2.5-pro" },
       { Provider := "aistudio", ModelID := "gemini-2.5-pro" },
       { Provider := "gemini", ModelID := "gemini-2.5-pro" }]
      (by decide)).2 2 (by decide) (by decide) (by decide)
  simpa using h

/-- lookupCanonical returns "" exactly when no listed family contains the
model id, provided every family key is nonempty. -/
theorem lookupCanonical_eq_empty (L : List (String × List FamilyMember)) (m : String)
    (hk : ∀ p ∈ L, p.1 ≠ "") :
    lookupCanonical L m = "" ↔ ∀ p ∈ L, ∀ mem ∈ p.2, mem.ModelID ≠ m := by
  induction L with
  | nil => simp [lookupCanonical]
  | cons entry rest ih =>
    obtain ⟨c, ms⟩ := entry
    have hk2 : ∀ p ∈ rest, p.1 ≠ "" := fun p hp => hk p (List.mem_cons_of_mem _ hp)
    cases h : ms.any (fun mem => mem.ModelID == m) with
    | true =>
      have hc : c ≠ "" := hk (c, ms) (List.mem_cons_self _ _)
      rw [show lookupCanonical ((c, ms) :: rest) m = c from by simp [lookupCanonical, h]]
      constructor
      · intro hcc; exact absurd hcc hc
      · intro hall
        obtain ⟨mem, hmem, heq⟩ := List.any_eq_true.mp h
        exact absurd (by simpa using heq) (hall (c, ms) (List.mem_cons_self _ _) mem hmem)
    | false =>
      have hnone : ∀ mem ∈ ms, mem.ModelID ≠ m := by
        intro mem hmem
        simpa using List.any_eq_false.mp h mem hmem
      rw [show lookupCanonical ((c, ms) :: rest) m = lookupCanonical rest m from by
        simp [lookupCanonical, h]]
      rw [ih hk2]
      constructor
      · intro hall p hp
        rcases List.mem_cons.mp hp with hpc | hpr
        · subst hpc; exact hnone
        · exact hall p hpr
      · intro hall p hp
        exact hall p (List.mem_cons_of_mem _ hp)

/-- A nonempty lookupCanonical result is the key of a listed family that
contains the model id. -/
theorem lookupCanonical_mem (L : List (String × List FamilyMember)) (m : String) :
    lookupCanonical L m ≠ "" →
      ∃ p ∈ L, p.1 = lookupCanonical L m ∧ ∃ mem ∈ p.2, mem.ModelID = m := by
  induction L with
  | nil => intro h; exact absurd rfl h
  | cons entry rest ih =>
    obtain ⟨c, ms⟩ := entry
    cases h : ms.any (fun mem => mem.ModelID == m) with
    | true =>
      intro _
      obtain ⟨mem, hmem, heq⟩ := List.any_eq_true.mp h
      refine ⟨(c, ms), List.mem_cons_self _ _, ?_, mem, hmem, by simpa using heq⟩
      simp [lookupCanonical, h]
    | false =>
      intro hne
      have hL : lookupCanonical ((c, ms) :: rest) m = lookupCanonical rest m := by
        simp [lookupCanonical, h]
      rw [hL] at hne ⊢
      obtain ⟨p, hp, h1, h2⟩ := ih hne
      exact ⟨p, List.mem_cons_of_mem _ hp, h1, h2⟩

/-- C4: GetCanonicalModelID returns "" exactly when no family contains a
member with the given model id; a nonempty result is a canonical key whose
member list contains the id; and reverse lookup round-trips: every member
of every family maps back to its family key. -/
theorem getCanonicalModelID_correct (m : String) :
    (GetCanonicalModelID m = "" ↔ ∀ p ∈ ModelFamilies, ∀ mem ∈ p.2, mem.ModelID ≠ m) ∧
    (GetCanonicalModelID m ≠ "" →
      ∃ p ∈ ModelFamilies, p.1 = GetCanonicalModelID m ∧ ∃ mem ∈ p.2, mem.ModelID = m) ∧
    (∀ p ∈ ModelFamilies, ∀ mem ∈ p.2, GetCanonicalModelID mem.ModelID = p.1) := by
  refine ⟨lookupCanonical_eq_empty ModelFamilies m (by decide),
    lookupCanonical_mem ModelFamilies m, by decide⟩

/-- C4 witness: a concrete member id maps back to its family key. -/
theorem getCanonicalModelID_correct_witness :
    GetCanonicalModelID "claude-sonnet-4-5-20250929" = "claude-sonnet-4-5" := by
  exact (getCanonicalModelID_correct "claude-sonnet-4-5-20250929").2.2
    ("claude-sonnet-4-5",
      [{ Provider := "kiro", ModelID := "claude-sonnet-4-5" },
       { Provider := "antigravity", ModelID := "gemini-claude-sonnet-4-5" },
       { Provider := "claude", ModelID := "claude-sonnet-4-5-20250929" }])
    (by decide)
    { Provider := "claude", ModelID := "claude-sonnet-4-5-20250929" }
    (by decide)

/-- A list ending in an element is nonempty. -/
theorem concat_isEmpty_false {beta : Type} (l : List beta) (x : beta) :
    (l ++ [x]).isEmpty = false := by
  cases l <;> rfl

/-- appendToLast on a list ending in (r, acc) extends that last content. -/
theorem appendToLast_concat {alpha : Type} (pref : List (String × List alpha)) (r : String)
    (acc qs : List alpha) :
    appendToLast (pref ++ [(r, acc)]) qs = pref ++ [(r, acc ++ qs)] := by
  induction pref with
  | nil => rfl
  | cons x pref ih =>
    cases pref with
    | nil => rfl
    | cons y pref2 =>
      show x :: appendToLast ((y :: pref2) ++ [(r, acc)]) qs
          = x :: ((y :: pref2) ++ [(r, acc ++ qs)])
      exact congrArg (x :: ·) ih

/-- Folding emitStep from a state whose contents end in the open content
(r, acc) (with lastRole r) yields the prefix plus the spec-side mergeRun of
the remaining emissions. -/
theorem foldl_emitStep_concat {alpha : Type} (es : List (String × List alpha)) :
    ∀ (pref : List (String × List alpha)) (r : String) (acc : List alpha),
      (es.foldl emitStep { contents := pref ++ [(r, acc)], lastRole := r }).contents
        = pref ++ mergeRun r acc es := by
  induction es with
  | nil =>
    intro pref r acc
    rfl
  | cons e rest ih =>
    obtain ⟨r2, ps2⟩ := e
    intro pref r acc
    rw [List.foldl_cons]
    cases h2 : ps2.isEmpty with
    | true =>
      have hstep : emitStep { contents := pref ++ [(r, acc)], lastRole := r } (r2, ps2)
          = { contents := pref ++ [(r, acc)], lastRole := r } := by
        simp [emitStep, Emit, h2]
      rw [hstep, ih]
      simp [mergeRun, h2]
    | false =>
      cases hr : r2 == r with
      | false =>
        have hstep : emitStep { contents := pref ++ [(r, acc)], lastRole := r } (r2, ps2)
            = { contents := (pref ++ [(r, acc)]) ++ [(r2, ps2)], lastRole := r2 } := by
          simp [emitStep, Emit, h2, hr]
        rw [hstep, ih (pref ++ [(r, acc)]) r2 ps2]
        simp [mergeRun, h2, hr, List.append_assoc]
      | true =>
        have hne : (pref ++ [(r, acc)]).isEmpty = false := concat_isEmpty_false _ _
        have hstep : emitStep { contents := pref ++ [(r, acc)], lastRole := r } (r2, ps2)
            = { contents := pref ++ [(r, acc ++ ps2)], lastRole := r } := by
          simp [emitStep, Emit, h2, hr, hne, appendToLast_concat]
        rw [hstep, ih pref r (acc ++ ps2)]
        simp [mergeRun, h2, hr]

/-- Running all emissions on a fresh coalescer produces exactly the
spec-side coalescing. -/
theorem runEmits_contents {alpha : Type} (es : List (String × List alpha)) :
    (runEmits es).contents = coalesceSpec es := by
  induction es with
  | nil => rfl
  | cons e rest ih =>
    obtain ⟨r, ps⟩ := e
    show (List.foldl emitStep
        (emitStep { contents := [], lastRole := "" } (r, ps)) rest).contents = _
    cases h : ps.isEmpty with
    | true =>
      have hstep : emitStep { contents := ([] : List (String × List alpha)), lastRole := "" }
          (r, ps) = { contents := [], lastRole := "" } := by
        simp [emitStep, Emit, h]
      rw [hstep]
      have ih2 : (List.foldl emitStep
          { contents := ([] : List (String × List alpha)), lastRole := "" } rest).contents
          = coalesceSpec rest := ih
      rw [ih2]
      simp [coalesceSpec, h]
    | false =>
      have hstep : emitStep { contents := ([] : List (String × List alpha)), lastRole := "" }
          (r, ps) = { contents := [(r, ps)], lastRole := r } := by
        simp [emitStep, Emit, h]
      rw [hstep]
      have h1 := foldl_emitStep_concat rest ([] : List (String × List alpha)) r ps
      simp only [List.nil_append] at h1
      rw [h1]
      simp [coalesceSpec, h]

/-- The first content produced by mergeRun carries the open role. -/
theorem mergeRun_head {alpha : Type} (es : List (String × List alpha)) :
    ∀ (r : String) (acc : List alpha),
      ((mergeRun r acc es).head?).map Prod.fst = some r := by
  induction es with
  | nil => intro r acc; rfl
  | cons e rest ih =>
    obtain ⟨r2, ps2⟩ := e
    intro r acc
    cases h2 : ps2.isEmpty with
    | true =>
      rw [show mergeRun r acc ((r2, ps2) :: rest) = mergeRun r acc rest from by
        simp [mergeRun, h2]]
      exact ih r acc
    | false =>
      cases hr : r2 == r with
      | true =>
        rw [show mergeRun r acc ((r2, ps2) :: rest) = mergeRun r (acc ++ ps2) rest from by
          simp [mergeRun, h2, hr]]
        exact ih r (acc ++ ps2)
      | false =>
        rw [show mergeRun r acc ((r2, ps2) :: rest)
            = (r, acc) :: mergeRun r2 ps2 rest from by simp [mergeRun, h2, hr]]
        rfl

/-- mergeRun never produces two adjacent contents with the same role. -/
theorem mergeRun_chain {alpha : Type} (es : List (String × List alpha)) :
    ∀ (r : String) (acc : List alpha),
      List.Chain' (fun a b => a.1 ≠ b.1) (mergeRun r acc es) := by
  induction es with
  | nil => intro r acc; exact List.chain'_singleton _
  | cons e rest ih =>
    obtain ⟨r2, ps2⟩ := e
    intro r acc
    cases h2 : ps2.isEmpty with
    | true =>
      rw [show mergeRun r acc ((r2, ps2) :: rest) = mergeRun r acc rest from by
        simp [mergeRun, h2]]
      exact ih r acc
    | false =>
      cases hr : r2 == r with
      | true =>
        rw [show mergeRun r acc ((r2, ps2) :: rest) = mergeRun r (acc ++ ps2) rest from by
          simp [mergeRun, h2, hr]]
        exact ih r (acc ++ ps2)
      | false =>
        rw [show mergeRun r acc ((r2, ps2) :: rest)
            = (r, acc) :: mergeRun r2 ps2 rest from by simp [mergeRun, h2, hr]]
        refine List.chain'_cons'.mpr ⟨?_, ih r2 ps2⟩
        intro y hy
        have hhead := mergeRun_head rest r2 ps2
        rw [Option.mem_def] at hy
        rw [hy] at hhead
        have hy1 : y.1 = r2 := Option.some.inj (by simpa using hhead)
        have hne : r2 ≠ r := beq_eq_false_iff_ne.mp hr
        show r ≠ y.1
        rw [hy1]
        exact Ne.symm hne

/-- coalesceSpec never produces two adjacent contents with the same role. -/
theorem coalesceSpec_chain {alpha : Type} (es : List (String × List alpha)) :
    List.Chain' (fun a b => a.1 ≠ b.1) (coalesceSpec es) := by
  induction es with
  | nil => simp [coalesceSpec]
  | cons e rest ih =>
    obtain ⟨r, ps⟩ := e
    cases h : ps.isEmpty with
    | true =>
      rw [show coalesceSpec ((r, ps) :: rest) = coalesceSpec rest from by
        simp [coalesceSpec, h]]
      exact ih
    | false =>
      rw [show coalesceSpec ((r, ps) :: rest) = mergeRun r ps rest from by
        simp [coalesceSpec, h]]
      exact mergeRun_chain rest r ps

/-- C2: for every emission sequence on a fresh ContentCoalescer, Build
returns the spec-side coalescing (consecutive same-role emissions
concatenated in order into one content, empty emissions dropped), the
result never has two consecutive contents with the same role, and an Emit
with empty parts changes nothing. -/
theorem contentCoalescer_build_spec {alpha : Type} (es : List (String × List alpha)) :
    Build (runEmits es) = coalesceSpec es ∧
    List.Chain' (fun a b => a.1 ≠ b.1) (Build (runEmits es)) ∧
    ∀ (c : ContentCoalescer alpha) (role : String), Emit c role [] = c := by
  refine ⟨runEmits_contents es, ?_, fun c role => rfl⟩
  show List.Chain' (fun a b => a.1 ≠ b.1) (runEmits es).contents
  rw [runEmits_contents es]
  exact coalesceSpec_chain es
